import Mathlib

/-!
# rusting_rays: the browser front end (`src/index.ts`)

A shallow embedding of `src/index.ts`: the three functions `getData`,
`getOptions`, `drawToCanvas` and the three event handlers (form submit, canvas
mousedown, window load), together with the small part of the platform they
touch (string-to-number conversion, `FormData.get`, the canvas element, its 2D
context and `TypedArray.prototype.set`).

Conventions of the embedding.

* Numbers.  A JavaScript number is a `JSNumber`: `NaN`, the two infinities,
  negative zero, or a finite value given by the rational it denotes.  Every
  operation that produces a number rounds its exact result to binary64 (round
  to nearest, ties to even, with overflow to an infinity and gradual
  underflow), as the language does.
* The canvas.  The `width` and `height` attributes are `unsigned long` values
  limited to 0 .. 2147483647, and the output bitmap stores its pixels with the
  colour channels premultiplied by alpha, eight bits each.  Failure to
  allocate memory is not represented.
* Effects.  The page state is threaded explicitly: the canvas (its size and
  bitmap) and a log of the calls made to the engine's `get_image`.  A function
  that may throw returns an `Except JSError _` next to the state reached when
  it stopped, so that mutations made before a throw stay visible.
* Asynchrony.  One handler run is modelled from start to finish; `await` is
  sequencing, a rejected promise is a thrown error.
-/

namespace RustingRays

/-! ## Numbers -/

/-- ECMAScript Number values: `NaN`, `+Infinity`, `-Infinity`, `-0` and the
finite values other than `-0`, each given by the rational it denotes (`fin 0`
is `+0`).  The operations below only produce binary64 values. -/
inductive JSNumber where
  | nan
  | posInf
  | negInf
  | negZero
  | fin (q : ℚ)
  deriving DecidableEq

/-- Round a rational to the nearest integer, a tie going to the even one. -/
def roundHalfEven (x : ℚ) : ℤ :=
  let f := ⌊x⌋
  if x - f < 1 / 2 then f
  else if 1 / 2 < x - f then f + 1
  else if f % 2 = 0 then f else f + 1

/-- Exponent `k` of the binary64 spacing `2^k` around a positive magnitude:
53 significant bits, and never below the subnormal spacing `2^-1074`. -/
def quantumExponent (a : ℚ) : ℤ :=
  max (Int.log 2 a - 52) (-1074)

/-- The binary64 value of an exact result: round to nearest, ties to even; a
magnitude that rounds to `2^1024` or more becomes an infinity, one that rounds
to zero becomes the zero of the same sign. -/
def roundBinary64 (q : ℚ) : JSNumber :=
  if q = 0 then .fin 0 else
  let k := quantumExponent |q|
  let m := roundHalfEven (|q| / 2 ^ k)
  let v : ℚ := m * 2 ^ k
  if 2 ^ (1024 : ℤ) ≤ v then (if 0 < q then .posInf else .negInf)
  else if m = 0 then (if 0 < q then .fin 0 else .negZero)
  else .fin (if 0 < q then v else -v)

namespace JSNumber

/-- The binary `-` operator on numbers: the exact difference rounded to
binary64, with the IEEE 754 rules for `NaN`, the infinities and the zeros. -/
def sub : JSNumber → JSNumber → JSNumber
  | nan, _ => nan
  | _, nan => nan
  | posInf, posInf => nan
  | negInf, negInf => nan
  | posInf, _ => posInf
  | negInf, _ => negInf
  | _, posInf => negInf
  | _, negInf => posInf
  | negZero, negZero => fin 0
  | negZero, fin b => if b = 0 then negZero else roundBinary64 (-b)
  | fin a, negZero => roundBinary64 a
  | fin a, fin b => roundBinary64 (a - b)

instance : Sub JSNumber := ⟨sub⟩

/-- The comparison `n > 0`; false for `NaN`. -/
def isPositive : JSNumber → Bool
  | posInf => true
  | fin q => decide (0 < q)
  | _ => false

end JSNumber

/-! ## `Number(string)`: the StringToNumber conversion -/

/-- Code points of `StrWhiteSpaceChar` (WhiteSpace and LineTerminator). -/
def isStrWhiteSpaceChar (c : Char) : Bool :=
  let n := c.toNat
  decide (n = 0x09 ∨ n = 0x0A ∨ n = 0x0B ∨ n = 0x0C ∨ n = 0x0D ∨ n = 0x20 ∨ n = 0xA0
    ∨ n = 0x1680 ∨ (0x2000 ≤ n ∧ n ≤ 0x200A) ∨ n = 0x2028 ∨ n = 0x2029 ∨ n = 0x202F
    ∨ n = 0x205F ∨ n = 0x3000 ∨ n = 0xFEFF)

/-- Strip leading and trailing `StrWhiteSpaceChar`s. -/
def trimStrWhiteSpace (cs : List Char) : List Char :=
  ((cs.dropWhile isStrWhiteSpaceChar).reverse.dropWhile isStrWhiteSpaceChar).reverse

/-- The characters `0` .. `9`. -/
def isDecimalDigit (c : Char) : Bool :=
  decide (48 ≤ c.toNat ∧ c.toNat ≤ 57)

/-- Value of a digit character (`0-9`, `a-f`, `A-F`). -/
def digitValue (c : Char) : Option Nat :=
  let n := c.toNat
  if 48 ≤ n ∧ n ≤ 57 then some (n - 48)
  else if 97 ≤ n ∧ n ≤ 102 then some (n - 87)
  else if 65 ≤ n ∧ n ≤ 70 then some (n - 55)
  else none

/-- Value of a run of digits in the given radix, continuing from `acc`; `none`
when a character is not a digit of that radix. -/
def digitsValueFrom (radix : Nat) (acc : Nat) : List Char → Option Nat
  | [] => some acc
  | c :: cs =>
    match digitValue c with
    | some d => if d < radix then digitsValueFrom radix (acc * radix + d) cs else none
    | none => none

/-- Value of a non-empty run of digits in the given radix. -/
def digitsValue (radix : Nat) (cs : List Char) : Option Nat :=
  if cs.isEmpty then none else digitsValueFrom radix 0 cs

/-- The production `SignedInteger`: decimal digits with an optional sign. -/
def SignedInteger (cs : List Char) : Option Int :=
  match cs with
  | '+' :: r => (digitsValue 10 r).map Int.ofNat
  | '-' :: r => (digitsValue 10 r).map fun n => - Int.ofNat n
  | _ => (digitsValue 10 cs).map Int.ofNat

/-- An optional `ExponentPart` that must use up the rest of the literal. -/
def ExponentPart (cs : List Char) : Option Int :=
  match cs with
  | [] => some 0
  | c :: r => if c = 'e' ∨ c = 'E' then SignedInteger r else none

/-- A parsed `StrNumericLiteral`: an infinity, a decimal literal
`±mantissa × 10^exponent`, or a `0x`/`0o`/`0b` integer. -/
inductive StrNumericLiteral where
  | infinity (negative : Bool)
  | decimal (negative : Bool) (mantissa : Nat) (exponent : Int)
  | nonDecimal (value : Nat)
  deriving DecidableEq

/-- The production `StrUnsignedDecimalLiteral`: `Infinity`, or digits with an optional
fraction and exponent; `none` when the characters do not form one. -/
def StrUnsignedDecimalLiteral (negative : Bool) (cs : List Char) : Option StrNumericLiteral :=
  if cs = "Infinity".toList then some (.infinity negative) else
  let intPart := cs.takeWhile isDecimalDigit
  let rest := cs.dropWhile isDecimalDigit
  let fracPart := match rest with
    | '.' :: r => r.takeWhile isDecimalDigit
    | _ => []
  let rest := match rest with
    | '.' :: r => r.dropWhile isDecimalDigit
    | _ => rest
  if intPart.isEmpty ∧ fracPart.isEmpty then none else
  match ExponentPart rest, digitsValueFrom 10 0 (intPart ++ fracPart) with
  | some e, some m => some (.decimal negative m (e - (fracPart.length : Int)))
  | _, _ => none

/-- The production `StrDecimalLiteral`: an unsigned decimal literal with an optional sign. -/
def StrDecimalLiteral (cs : List Char) : Option StrNumericLiteral :=
  match cs with
  | '+' :: r => StrUnsignedDecimalLiteral false r
  | '-' :: r => StrUnsignedDecimalLiteral true r
  | _ => StrUnsignedDecimalLiteral false cs

/-- The production `NonDecimalIntegerLiteral`: `0x`, `0o` and `0b` literals. -/
def NonDecimalIntegerLiteral (cs : List Char) : Option Nat :=
  match cs with
  | '0' :: p :: r =>
    if p = 'x' ∨ p = 'X' then digitsValue 16 r
    else if p = 'o' ∨ p = 'O' then digitsValue 8 r
    else if p = 'b' ∨ p = 'B' then digitsValue 2 r
    else none
  | _ => none

/-- Parse a whole string as a `StringNumericLiteral`: white space is trimmed,
the empty string stands for `0`; `none` when the string is not numeric. -/
def parseStringNumericLiteral (s : String) : Option StrNumericLiteral :=
  let cs := trimStrWhiteSpace s.toList
  if cs.isEmpty then some (.decimal false 0 0) else
  match NonDecimalIntegerLiteral cs with
  | some n => some (.nonDecimal n)
  | none => StrDecimalLiteral cs

/-- StringNumericValue of a parsed literal: its mathematical value, correctly
rounded to binary64; a negative literal of value zero is `-0`.  (The language
lets an implementation round less exactly only when a decimal literal has more
than 20 significant digits.) -/
def StringNumericValue : StrNumericLiteral → JSNumber
  | .infinity false => .posInf
  | .infinity true => .negInf
  | .decimal false m e => roundBinary64 ((m : ℚ) * (10 : ℚ) ^ e)
  | .decimal true m e =>
    if m = 0 then .negZero else roundBinary64 (-((m : ℚ) * (10 : ℚ) ^ e))
  | .nonDecimal n => roundBinary64 (n : ℚ)

/-- StringToNumber: the value of the string as a numeric literal, `NaN` when
it is not one. -/
def StringToNumber (s : String) : JSNumber :=
  match parseStringNumericLiteral s with
  | some literal => StringNumericValue literal
  | none => .nan

/-! ## Values, truthiness and `||` -/

/-- The JavaScript values that occur in `getOptions`: `null` (a missing form
entry), a string (a form entry) and a number (the default `300`). -/
inductive JSValue where
  | null
  | string (s : String)
  | number (n : JSNumber)
  deriving DecidableEq

/-- ToBoolean. -/
def ToBoolean : JSValue → Bool
  | .null => false
  | .string s => decide (s ≠ "")
  | .number .nan => false
  | .number .negZero => false
  | .number (.fin q) => decide (q ≠ 0)
  | .number _ => true

/-- The operator `a || b`. -/
def JSValue.or (a b : JSValue) : JSValue :=
  if ToBoolean a then a else b

/-- The conversion `Number(value)`. -/
def Number : JSValue → JSNumber
  | .null => .fin 0
  | .string s => StringToNumber s
  | .number n => n

/-! ## The form -/

/-- The entry list of `new FormData(form)`: names and string values, in tree
order. -/
abbrev FormData := List (String × String)

/-- The value of the first entry with the given name, `null` when there is none. -/
def FormData.get (formData : FormData) (name : String) : JSValue :=
  match formData.find? (fun e => e.1 == name) with
  | some e => .string e.2
  | none => .null

/-- The object returned by `getOptions`. -/
structure Options where
  width : JSNumber
  height : JSNumber
  deriving DecidableEq

/-- The function `getOptions` (src/index.ts, lines 19-29). -/
def getOptions (formData : FormData) : Options :=
  let width := Number ((formData.get "width").or (.number (.fin 300)))
  let height := Number ((formData.get "height").or (.number (.fin 300)))
  { width := width, height := height }

/-! ## The engine boundary -/

/-- The `Point` interface (src/index.ts, lines 5-8). -/
structure Point where
  x : JSNumber
  y : JSNumber
  deriving DecidableEq

/-- One byte of a pixel buffer. -/
abbrev Byte := Fin 256

/-- Modelled from the spec: `ImageRawData` is declared in `./pkg`, the
generated engine bindings, which are not part of the sources.  An engine
result reports a width, a height and a byte sequence of pixels; the fields are
named after the accessors `drawToCanvas` calls. -/
structure ImageRawData where
  get_width : Nat
  get_height : Nat
  get_data : List Byte
  deriving DecidableEq

/-- Errors thrown during a render: the two the platform raises inside
`drawToCanvas`, and whatever the engine boundary throws. -/
inductive JSError where
  | IndexSizeError
  | RangeError
  | engine (message : String)
  deriving DecidableEq

deriving instance DecidableEq for Except

/-- The arguments of one call `ImageRawData.get_image(width, height, point)`. -/
structure EngineCall where
  width : JSNumber
  height : JSNumber
  point : Point
  deriving DecidableEq

/-- The static method `ImageRawData.get_image` of a loaded engine: it returns
an image or throws. -/
abbrev GetImage := EngineCall → Except JSError ImageRawData

/-- The outcome of `import("./pkg")`: the loaded engine, or a rejection. -/
abbrev Pkg := Except JSError GetImage

/-- The function `getData` (src/index.ts, lines 10-17).  `point` is `none` for `undefined`.
The call log is extended by the call made to `get_image`, if one is made. -/
def getData (pkg : Pkg) (width height : JSNumber) (point : Option Point)
    (calls : List EngineCall) : List EngineCall × Except JSError ImageRawData :=
  match pkg with
  | .error e => (calls, .error e)
  | .ok get_image =>
    let call : EngineCall :=
      { width := width
        height := height
        point := match point with
          | none => { x := .fin (-1000), y := .fin (-1000) }
          | some point => point }
    (calls ++ [call], get_image call)

/-! ## The canvas -/

/-- The canvas element with its 2D output bitmap: four bytes per pixel,
row-major from the origin, the three colour channels premultiplied by the
alpha channel that follows them. -/
structure Canvas where
  width : Nat
  height : Nat
  bitmap : List Byte
  deriving DecidableEq

/-- The value an `unsigned long` attribute limited to non-negative numbers
takes when a non-negative integer is assigned to it: the integer is converted
modulo 2^32, and a result above 2147483647 is replaced by the attribute's
default value. -/
def reflectUnsignedLong (defaultValue value : Nat) : Nat :=
  let v := value % 4294967296
  if v ≤ 2147483647 then v else defaultValue

/-- The assignment `canvas.width = value` (default width 300): the bitmap
takes the new size and is cleared to transparent black. -/
def Canvas.setWidth (canvas : Canvas) (value : Nat) : Canvas :=
  let width := reflectUnsignedLong 300 value
  { width := width, height := canvas.height
    bitmap := List.replicate (width * canvas.height * 4) 0 }

/-- The assignment `canvas.height = value` (default height 150): the bitmap
takes the new size and is cleared to transparent black. -/
def Canvas.setHeight (canvas : Canvas) (value : Nat) : Canvas :=
  let height := reflectUnsignedLong 150 value
  { width := canvas.width, height := height
    bitmap := List.replicate (canvas.width * height * 4) 0 }

/-- A colour channel premultiplied by alpha: `c * a / 255`, rounded to
nearest. -/
def premultiply (c a : Byte) : Byte :=
  Fin.ofNat ((2 * c.val * a.val + 255) / 510)

/-- A premultiplied colour channel read back: `c * 255 / a`, rounded to
nearest and clamped; zero when alpha is zero. -/
def unpremultiply (c a : Byte) : Byte :=
  if a.val = 0 then 0 else Fin.ofNat (min 255 ((510 * c.val + a.val) / (2 * a.val)))

/-- The RGBA bytes of the whole surface as reading it back gives them,
row-major from the origin: the colour channels of the bitmap divided by their
alpha. -/
def Canvas.readPixels (canvas : Canvas) : List Byte :=
  (List.range (canvas.width * canvas.height * 4)).map fun i =>
    let alpha := canvas.bitmap.getD (i / 4 * 4 + 3) 0
    if i % 4 = 3 then alpha else unpremultiply (canvas.bitmap.getD i 0) alpha

/-- An `ImageData` object; `data` is its `Uint8ClampedArray`. -/
structure ImageData where
  width : Nat
  height : Nat
  data : List Byte
  deriving DecidableEq

/-- The method `ctx.createImageData(sw, sh)`: throws `IndexSizeError` when an
argument is zero, otherwise a transparent black image of that size (the
`RangeError` of an allocation that fails is not represented). -/
def createImageData (sw sh : Nat) : Except JSError ImageData :=
  if sw = 0 ∨ sh = 0 then .error .IndexSizeError
  else .ok { width := sw, height := sh, data := List.replicate (sw * sh * 4) 0 }

/-- The method `target.set(source)` of a typed array, with offset 0: throws
`RangeError` when the source is longer than the target, otherwise overwrites
the first `source.length` elements. -/
def TypedArray.set (target source : List Byte) : Except JSError (List Byte) :=
  if target.length < source.length then .error .RangeError
  else .ok (source ++ target.drop source.length)

/-- The call `ctx.putImageData(imageData, 0, 0)`: every canvas pixel covered by
the image takes the pixel of the image with the same coordinates, its colour
channels premultiplied by its alpha; the other pixels keep theirs.  Nothing
is blended. -/
def putImageData (canvas : Canvas) (imageData : ImageData) : Canvas :=
  { canvas with
    bitmap := (List.range (canvas.width * canvas.height * 4)).map fun i =>
      let x := i / 4 % canvas.width
      let y := i / 4 / canvas.width
      if x < imageData.width ∧ y < imageData.height then
        let p := (y * imageData.width + x) * 4
        let alpha := imageData.data.getD (p + 3) 0
        if i % 4 = 3 then alpha else premultiply (imageData.data.getD (p + i % 4) 0) alpha
      else canvas.bitmap.getD i 0 }

/-- The function `drawToCanvas` (src/index.ts, lines 31-45), on a canvas whose
`getContext("2d")` yields a context.  Returns the canvas as the call leaves
it and whether the call returned or threw. -/
def drawToCanvas (data : ImageRawData) (canvas : Canvas) : Canvas × Except JSError Unit :=
  let canvas := canvas.setWidth data.get_width
  let canvas := canvas.setHeight data.get_height
  match createImageData canvas.width canvas.height with
  | .error e => (canvas, .error e)
  | .ok imageData =>
    let dataArray := data.get_data
    match TypedArray.set imageData.data dataArray with
    | .error e => (canvas, .error e)
    | .ok written => (putImageData canvas { imageData with data := written }, .ok ())

/-! ## The page and its event handlers -/

/-- The state a handler run can change: the canvas, and the record of the
calls made to `get_image` so far. -/
structure Page where
  canvas : Canvas
  calls : List EngineCall
  deriving DecidableEq

/-- The common tail of the three handlers: `getData` followed, when it
resolves, by `drawToCanvas`. -/
def render (pkg : Pkg) (options : Options) (point : Option Point) (page : Page) :
    Page × Except JSError Unit :=
  match getData pkg options.width options.height point page.calls with
  | (calls, .error e) => ({ page with calls := calls }, .error e)
  | (calls, .ok data) =>
    let drawn := drawToCanvas data page.canvas
    ({ canvas := drawn.1, calls := calls }, drawn.2)

/-- The form's `submit` listener (src/index.ts, lines 48-53). -/
def submitHandler (pkg : Pkg) (formData : FormData) (page : Page) :
    Page × Except JSError Unit :=
  let options := getOptions formData
  render pkg options none page

/-- A `mousedown` event on the canvas: the pointer's viewport coordinates and
the bounding client rectangle of the event target. -/
structure MouseEvent where
  clientX : JSNumber
  clientY : JSNumber
  rectLeft : JSNumber
  rectTop : JSNumber
  deriving DecidableEq

/-- The canvas's `mousedown` listener (src/index.ts, lines 56-66). -/
def mousedownHandler (pkg : Pkg) (formData : FormData) (e : MouseEvent) (page : Page) :
    Page × Except JSError Unit :=
  let x := e.clientX - e.rectLeft
  let y := e.clientY - e.rectTop
  let options := getOptions formData
  render pkg options (some { x := x, y := y }) page

/-- The `window.onload` handler (src/index.ts, lines 68-74). -/
def onload (pkg : Pkg) (formData : FormData) (page : Page) : Page × Except JSError Unit :=
  let options := getOptions formData
  render pkg options none page

/-! ## Vocabulary used to state the properties -/

/-- Base-ten value of a list of digit characters, most significant first, as
positional notation defines it. -/
def decimalValue (cs : List Char) : Nat :=
  Nat.ofDigits 10 (cs.reverse.map fun c => c.toNat - 48)

/-- The string `s` is a decimal numeral of `n`: a non-empty run of the
characters `0`-`9` whose base-ten value is `n`. -/
def IsDecimalNumeral (s : String) (n : Nat) : Prop :=
  s.toList ≠ [] ∧ (∀ c ∈ s.toList, isDecimalDigit c = true) ∧ decimalValue s.toList = n

instance (s : String) (n : Nat) : Decidable (IsDecimalNumeral s n) := by
  unfold IsDecimalNumeral; infer_instance

/-- The focus argument `getData` hands to the engine when no point is given. -/
def sentinel : Point := { x := .fin (-1000), y := .fin (-1000) }

/-- The rational `q` is a binary64 value: its magnitude is `m * 2^k` with a
significand `m` below 2^53 and an exponent `k` in the binary64 range. -/
def IsBinary64 (q : ℚ) : Prop :=
  ∃ (m : ℕ) (k : ℤ), m < 2 ^ 53 ∧ -1074 ≤ k ∧ k ≤ 971 ∧ |q| = m * 2 ^ k

/-- Every pixel of the buffer is fully opaque: each fourth byte, the alpha
channel, is 255. -/
def IsOpaque (data : List Byte) : Prop :=
  ∀ i < data.length, i % 4 = 3 → data.getD i 0 = 255

instance (data : List Byte) : Decidable (IsOpaque data) := by
  unfold IsOpaque; infer_instance

/-- The bytes of a pixel buffer as a bitmap stores them: each colour channel
premultiplied by the alpha channel of its pixel. -/
def premultiplied (data : List Byte) : List Byte :=
  (List.range data.length).map fun i =>
    let alpha := data.getD (i / 4 * 4 + 3) 0
    if i % 4 = 3 then alpha else premultiply (data.getD i 0) alpha

/-! ## Lemmas on binary64 rounding -/

theorem roundHalfEven_intCast (n : ℤ) : roundHalfEven (n : ℚ) = n := by
  simp [roundHalfEven]

theorem roundBinary64_of_isBinary64 {q : ℚ} (h : IsBinary64 q) : roundBinary64 q = .fin q := by
  obtain ⟨m, k, hm, hk1, hk2, hq⟩ := h
  by_cases h0 : q = 0
  · simp [roundBinary64, h0]
  have ha : 0 < |q| := abs_pos.mpr h0
  have h2k : (0 : ℚ) < 2 ^ k := zpow_pos (by norm_num) k
  have hmne : m ≠ 0 := by
    rintro rfl
    simp at hq
    exact h0 hq
  have hlt : |q| < (2 : ℚ) ^ (53 + k) := by
    rw [hq, zpow_add₀ (by norm_num)]
    apply mul_lt_mul_of_pos_right _ h2k
    exact_mod_cast hm
  have he : Int.log 2 |q| < 53 + k :=
    (Int.lt_zpow_iff_log_lt (by norm_num) ha).mp (by exact_mod_cast hlt)
  have hk'le : quantumExponent |q| ≤ k := by
    simp only [quantumExponent]
    omega
  obtain ⟨d, hd⟩ : ∃ d : ℕ, k = quantumExponent |q| + d :=
    ⟨(k - quantumExponent |q|).toNat, by omega⟩
  have h2k' : (0 : ℚ) < 2 ^ quantumExponent |q| := zpow_pos (by norm_num) _
  have hx : |q| / 2 ^ quantumExponent |q| = (((m * 2 ^ d : ℕ) : ℤ) : ℚ) := by
    rw [div_eq_iff h2k'.ne']
    conv_lhs => rw [hq, hd, zpow_add₀ (two_ne_zero), zpow_natCast]
    push_cast
    ring
  have hv : ((((m * 2 ^ d : ℕ) : ℤ) : ℚ)) * 2 ^ quantumExponent |q| = |q| := by
    rw [← hx, div_mul_cancel₀ _ h2k'.ne']
  have hbig : ¬ (2 : ℚ) ^ (1024 : ℤ) ≤ |q| := by
    rw [not_le, hq]
    calc (m : ℚ) * 2 ^ k < 2 ^ 53 * 2 ^ k := by
          apply mul_lt_mul_of_pos_right _ h2k
          exact_mod_cast hm
      _ ≤ 2 ^ 53 * 2 ^ (971 : ℤ) := by
          apply mul_le_mul_of_nonneg_left _ (by norm_num)
          exact zpow_le_zpow_right₀ (by norm_num) hk2
      _ = 2 ^ (1024 : ℤ) := by norm_num
  have hm0 : ((m * 2 ^ d : ℕ) : ℤ) ≠ 0 := by
    have : 0 < m * 2 ^ d := Nat.mul_pos (Nat.pos_of_ne_zero hmne) (by positivity)
    exact_mod_cast this.ne'
  simp only [roundBinary64, h0, if_false, hx, roundHalfEven_intCast, hv, hbig, hm0]
  congr 1
  by_cases hpos : 0 < q
  · simp [hpos, abs_of_pos hpos]
  · have hneg : q < 0 := lt_of_le_of_ne (not_lt.mp hpos) h0
    simp [hpos, abs_of_neg hneg]

theorem isBinary64_natCast {n : ℕ} (h : n ≤ 2 ^ 53) : IsBinary64 (n : ℚ) := by
  by_cases hlt : n < 2 ^ 53
  · exact ⟨n, 0, hlt, by norm_num, by norm_num, by simp⟩
  · have : n = 2 ^ 53 := by omega
    subst this
    exact ⟨2 ^ 52, 1, by norm_num, by norm_num, by norm_num, by norm_num⟩

theorem isBinary64_neg {q : ℚ} (h : IsBinary64 q) : IsBinary64 (-q) := by
  obtain ⟨m, k, h1, h2, h3, h4⟩ := h
  exact ⟨m, k, h1, h2, h3, by rw [abs_neg]; exact h4⟩

theorem int_log_two_eq {a : ℚ} {e : ℤ} (h1 : (2 : ℚ) ^ e ≤ a) (h2 : a < (2 : ℚ) ^ (e + 1)) :
    Int.log 2 a = e := by
  have ha : 0 < a := lt_of_lt_of_le (zpow_pos (by norm_num) e) h1
  have hlo : e ≤ Int.log 2 a := (Int.zpow_le_iff_le_log (by norm_num) ha).mp (by exact_mod_cast h1)
  have hhi : Int.log 2 a < e + 1 := (Int.lt_zpow_iff_log_lt (by norm_num) ha).mp (by exact_mod_cast h2)
  omega

theorem roundBinary64_two_pow_53_add_one :
    roundBinary64 9007199254740993 = .fin 9007199254740992 := by
  have hlog : Int.log 2 |(9007199254740993 : ℚ)| = 53 :=
    int_log_two_eq (by norm_num) (by norm_num)
  have hk : quantumExponent |(9007199254740993 : ℚ)| = 1 := by
    simp only [quantumExponent, hlog]; norm_num
  have hfloor : ⌊(9007199254740993 : ℚ) / 2⌋ = 4503599627370496 := by
    rw [Int.floor_eq_iff]; norm_num
  have hr : roundHalfEven (|(9007199254740993 : ℚ)| / 2 ^ (1 : ℤ)) = 4503599627370496 := by
    have habs : |(9007199254740993 : ℚ)| / 2 ^ (1 : ℤ) = 9007199254740993 / 2 := by norm_num
    rw [habs]
    simp only [roundHalfEven, hfloor]
    norm_num
  simp only [roundBinary64, hk, hr]
  norm_num


theorem roundHalfEven_of_lt {x : ℚ} {f : ℤ} (h1 : (f : ℚ) ≤ x) (h2 : x < f + 1 / 2) :
    roundHalfEven x = f := by
  have hfloor : ⌊x⌋ = f := by
    rw [Int.floor_eq_iff]
    constructor
    · exact h1
    · linarith
  have hlt : x - (f : ℚ) < 1 / 2 := by linarith
  simp only [roundHalfEven, hfloor, hlt, if_true]

theorem roundBinary64_of_pos {q : ℚ} {e m : ℤ} (h1 : (2 : ℚ) ^ e ≤ q)
    (h2 : q < (2 : ℚ) ^ (e + 1)) (he : -1022 ≤ e)
    (hm : roundHalfEven (q / 2 ^ (e - 52)) = m) (hm0 : m ≠ 0)
    (hfin : (m : ℚ) * 2 ^ (e - 52) < 2 ^ (1024 : ℤ)) :
    roundBinary64 q = .fin (m * 2 ^ (e - 52)) := by
  have hq : 0 < q := lt_of_lt_of_le (zpow_pos (by norm_num) e) h1
  have habs : |q| = q := abs_of_pos hq
  have hk : quantumExponent q = e - 52 := by
    simp only [quantumExponent, int_log_two_eq h1 h2]
    omega
  simp only [roundBinary64, hq.ne', if_false, habs, hk, hm, not_le.mpr hfin, hm0, hq, if_true]

theorem roundBinary64_sixty_sub :
    roundBinary64 (60 - 5685794529555251 / 562949953421312) =
      .fin (7022800668930867 / 140737488355328) := by
  have hm : roundHalfEven ((60 - 5685794529555251 / 562949953421312 : ℚ) / 2 ^ ((5 : ℤ) - 52)) =
      7022800668930867 :=
    roundHalfEven_of_lt (by norm_num) (by norm_num)
  rw [roundBinary64_of_pos (e := 5) (m := 7022800668930867) (by norm_num) (by norm_num)
    (by norm_num) hm (by norm_num) (by norm_num)]
  norm_num

/-! ## Lemmas on the string-to-number conversion -/

theorem dropWhile_eq_self_of_head {p : Char → Bool} :
    ∀ l : List Char, (∀ c, l.head? = some c → p c = false) → l.dropWhile p = l
  | [], _ => rfl
  | c :: cs, h => by simp [List.dropWhile, h c rfl]

theorem not_whiteSpace_of_digit {c : Char} (h : isDecimalDigit c = true) :
    isStrWhiteSpaceChar c = false := by
  simp only [isDecimalDigit, decide_eq_true_eq] at h
  simp only [isStrWhiteSpaceChar, decide_eq_false_iff_not]
  omega

theorem trimStrWhiteSpace_of_digits (cs : List Char)
    (h : ∀ c ∈ cs, isDecimalDigit c = true) : trimStrWhiteSpace cs = cs := by
  unfold trimStrWhiteSpace
  have h1 : cs.dropWhile isStrWhiteSpaceChar = cs :=
    dropWhile_eq_self_of_head cs fun c hc =>
      not_whiteSpace_of_digit (h c (List.mem_of_mem_head? hc))
  have h2 : cs.reverse.dropWhile isStrWhiteSpaceChar = cs.reverse :=
    dropWhile_eq_self_of_head cs.reverse fun c hc =>
      not_whiteSpace_of_digit (h c (List.mem_reverse.mp (List.mem_of_mem_head? hc)))
  rw [h1, h2, List.reverse_reverse]

theorem digitsValueFrom_of_digits (acc : Nat) (cs : List Char)
    (h : ∀ c ∈ cs, isDecimalDigit c = true) :
    digitsValueFrom 10 acc cs = some (acc * 10 ^ cs.length + decimalValue cs) := by
  induction cs generalizing acc with
  | nil => simp [digitsValueFrom, decimalValue]
  | cons c cs ih =>
    have hc : 48 ≤ c.toNat ∧ c.toNat ≤ 57 := by
      simpa [isDecimalDigit] using h c (List.mem_cons_self c cs)
    have hd : digitValue c = some (c.toNat - 48) := by simp [digitValue, hc]
    have hlt : c.toNat - 48 < 10 := by omega
    simp only [digitsValueFrom, hd, hlt, if_true]
    rw [ih _ fun d hdm => h d (List.mem_cons_of_mem c hdm)]
    simp only [decimalValue, List.reverse_cons, List.map_append, List.map_cons, List.map_nil,
      Nat.ofDigits_append, Nat.ofDigits_singleton, List.length_map, List.length_reverse,
      List.length_cons]
    congr 1
    ring

theorem NonDecimalIntegerLiteral_of_digits (cs : List Char)
    (h : ∀ c ∈ cs, isDecimalDigit c = true) : NonDecimalIntegerLiteral cs = none := by
  unfold NonDecimalIntegerLiteral
  split
  · rename_i p r
    have hp : isDecimalDigit p = true := h p (by simp)
    have h1 : ¬ (p = 'x' ∨ p = 'X') := by
      rintro (rfl | rfl) <;> exact absurd hp (by decide)
    have h2 : ¬ (p = 'o' ∨ p = 'O') := by
      rintro (rfl | rfl) <;> exact absurd hp (by decide)
    have h3 : ¬ (p = 'b' ∨ p = 'B') := by
      rintro (rfl | rfl) <;> exact absurd hp (by decide)
    simp [h1, h2, h3]
  · rfl

theorem StrUnsignedDecimalLiteral_of_digits (negative : Bool) (cs : List Char) (hne : cs ≠ [])
    (h : ∀ c ∈ cs, isDecimalDigit c = true) :
    StrUnsignedDecimalLiteral negative cs = some (.decimal negative (decimalValue cs) 0) := by
  have hinf : cs ≠ "Infinity".toList := by
    intro heq
    exact absurd (h 'I' (by rw [heq]; decide)) (by decide)
  have hinf' : ¬ cs = ['I', 'n', 'f', 'i', 'n', 'i', 't', 'y'] := hinf
  have htake : cs.takeWhile isDecimalDigit = cs := List.takeWhile_eq_self_iff.mpr h
  have hdrop : cs.dropWhile isDecimalDigit = [] := List.dropWhile_eq_nil_iff.mpr h
  have hval := digitsValueFrom_of_digits 0 cs h
  simp only [Nat.zero_mul, Nat.zero_add] at hval
  simp [StrUnsignedDecimalLiteral, hinf', htake, hdrop, hne, ExponentPart, hval]

theorem StrDecimalLiteral_of_digits (cs : List Char) (hne : cs ≠ [])
    (h : ∀ c ∈ cs, isDecimalDigit c = true) :
    StrDecimalLiteral cs = some (.decimal false (decimalValue cs) 0) := by
  unfold StrDecimalLiteral
  split
  · exact absurd (h '+' (by simp)) (by decide)
  · exact absurd (h '-' (by simp)) (by decide)
  · exact StrUnsignedDecimalLiteral_of_digits false cs hne h

theorem StringToNumber_of_decimalNumeral (s : String) (n : Nat) (h : IsDecimalNumeral s n) :
    StringToNumber s = roundBinary64 n := by
  obtain ⟨hne, hdig, hval⟩ := h
  have hparse : parseStringNumericLiteral s = some (.decimal false n 0) := by
    simp only [parseStringNumericLiteral, trimStrWhiteSpace_of_digits _ hdig,
      NonDecimalIntegerLiteral_of_digits _ hdig, StrDecimalLiteral_of_digits _ hne hdig, hval]
    have hne' : ¬ s.data = [] := hne
    simp [hne']
  simp [StringToNumber, hparse, StringNumericValue]

theorem StringToNumber_of_decimalNumeral_of_le (s : String) (n : Nat)
    (h : IsDecimalNumeral s n) (hn : n ≤ 2 ^ 53) : StringToNumber s = .fin n := by
  rw [StringToNumber_of_decimalNumeral s n h, roundBinary64_of_isBinary64 (isBinary64_natCast hn)]

theorem digitChar_toNat {k : Nat} (hk : k < 10) : (Nat.digitChar k).toNat = k + 48 := by
  interval_cases k <;> rfl

theorem toDigitsCore_decimal (fuel : Nat) : ∀ (n : Nat) (ds : List Char), n < fuel →
    ∃ pre, Nat.toDigitsCore 10 fuel n ds = pre ++ ds ∧ pre ≠ [] ∧
      (∀ c ∈ pre, isDecimalDigit c = true) ∧ decimalValue pre = n := by
  induction fuel with
  | zero => intro n ds h; omega
  | succ fuel ih =>
    intro n ds h
    have hlt : n % 10 < 10 := Nat.mod_lt _ (by norm_num)
    have hd := digitChar_toNat hlt
    have hdig : isDecimalDigit (Nat.digitChar (n % 10)) = true := by
      simp only [isDecimalDigit, hd, decide_eq_true_eq]; omega
    by_cases h0 : n / 10 = 0
    · refine ⟨[Nat.digitChar (n % 10)], ?_, by simp, ?_, ?_⟩
      · simp [Nat.toDigitsCore, h0]
      · intro c hc
        rw [List.mem_singleton.mp hc]; exact hdig
      · simp only [decimalValue, List.reverse_singleton, List.map_cons, List.map_nil,
          Nat.ofDigits_singleton, hd]
        omega
    · obtain ⟨pre, hpre, -, hall, hval⟩ := ih (n / 10) (Nat.digitChar (n % 10) :: ds) (by omega)
      refine ⟨pre ++ [Nat.digitChar (n % 10)], ?_, by simp, ?_, ?_⟩
      · simp [Nat.toDigitsCore, h0, hpre]
      · intro c hc
        rcases List.mem_append.mp hc with hc | hc
        · exact hall c hc
        · rw [List.mem_singleton.mp hc]; exact hdig
      · simp only [decimalValue] at hval
        simp only [decimalValue, List.reverse_append, List.reverse_singleton, List.singleton_append,
          List.map_cons, Nat.ofDigits_cons, hd, hval]
        omega

/-- The numeral that `toString` prints for `n` is a decimal numeral of `n`. -/
theorem isDecimalNumeral_toString (n : Nat) : IsDecimalNumeral (toString n) n := by
  obtain ⟨pre, hpre, hne, hall, hval⟩ := toDigitsCore_decimal (n + 1) n [] (by omega)
  have hdata : (toString n).toList = pre := by
    show (Nat.repr n).data = pre
    simp [Nat.repr, Nat.toDigits, List.asString, hpre]
  exact ⟨by rw [hdata]; exact hne, by rw [hdata]; exact hall, by rw [hdata]; exact hval⟩

/-! ## Lemmas on the canvas -/

theorem reflectUnsignedLong_of_le (defaultValue : Nat) {value : Nat}
    (h : value ≤ 2147483647) : reflectUnsignedLong defaultValue value = value := by
  have hmod : value % 4294967296 = value := Nat.mod_eq_of_lt (by omega)
  simp [reflectUnsignedLong, hmod, h]

theorem premultiply_opaque (c : Byte) : premultiply c 255 = c := by
  apply Fin.ext
  have hc := c.isLt
  show (2 * c.val * 255 + 255) / 510 % 256 = c.val
  omega

theorem unpremultiply_opaque (c : Byte) : unpremultiply c 255 = c := by
  apply Fin.ext
  have hc := c.isLt
  show (min 255 ((510 * c.val + 255) / (2 * 255))) % 256 = c.val
  omega

theorem putImageData_bitmap_of_same_size (canvas : Canvas) (imageData : ImageData)
    (hw : imageData.width = canvas.width) (hh : imageData.height = canvas.height)
    (hlen : imageData.data.length = canvas.width * canvas.height * 4) :
    (putImageData canvas imageData).bitmap = premultiplied imageData.data := by
  apply List.ext_getElem
  · simp [putImageData, premultiplied, hlen]
  · intro i h₁ h₂
    have hi : i < canvas.width * canvas.height * 4 := by
      simpa [putImageData] using h₁
    have hwpos : 0 < canvas.width := by
      rcases Nat.eq_zero_or_pos canvas.width with h0 | h0
      · simp [h0] at hi
      · exact h0
    have hq : i / 4 < canvas.width * canvas.height := by
      rw [Nat.div_lt_iff_lt_mul (by norm_num)]; exact hi
    have hx : i / 4 % canvas.width < canvas.width := Nat.mod_lt _ hwpos
    have hy : i / 4 / canvas.width < canvas.height := by
      rw [Nat.div_lt_iff_lt_mul hwpos, Nat.mul_comm]; exact hq
    have hpix : i / 4 / canvas.width * canvas.width + i / 4 % canvas.width = i / 4 :=
      Nat.div_add_mod' _ _
    have hidx : i / 4 * 4 + i % 4 = i := Nat.div_add_mod' i 4
    simp only [putImageData, premultiplied, List.getElem_map, List.getElem_range, hw, hh, hx, hy,
      and_self, if_true, hpix, hidx]

theorem drawToCanvas_of_zero (data : ImageRawData) (canvas : Canvas)
    (h : reflectUnsignedLong 300 data.get_width = 0 ∨
      reflectUnsignedLong 150 data.get_height = 0) :
    drawToCanvas data canvas =
      ({ width := reflectUnsignedLong 300 data.get_width,
         height := reflectUnsignedLong 150 data.get_height, bitmap := [] },
        .error .IndexSizeError) := by
  rcases h with h | h <;> simp [drawToCanvas, Canvas.setWidth, Canvas.setHeight, createImageData, h]

theorem drawToCanvas_of_long (data : ImageRawData) (canvas : Canvas)
    (hw : 0 < reflectUnsignedLong 300 data.get_width)
    (hh : 0 < reflectUnsignedLong 150 data.get_height)
    (hlen : reflectUnsignedLong 300 data.get_width * reflectUnsignedLong 150 data.get_height * 4
      < data.get_data.length) :
    drawToCanvas data canvas =
      ({ width := reflectUnsignedLong 300 data.get_width,
         height := reflectUnsignedLong 150 data.get_height,
         bitmap := List.replicate (reflectUnsignedLong 300 data.get_width *
           reflectUnsignedLong 150 data.get_height * 4) 0 },
        .error .RangeError) := by
  have hw' : reflectUnsignedLong 300 data.get_width ≠ 0 := by omega
  have hh' : reflectUnsignedLong 150 data.get_height ≠ 0 := by omega
  simp [drawToCanvas, Canvas.setWidth, Canvas.setHeight, createImageData, TypedArray.set, hw', hh',
    hlen]

theorem drawToCanvas_of_le (data : ImageRawData) (canvas : Canvas)
    (hw : 0 < reflectUnsignedLong 300 data.get_width)
    (hh : 0 < reflectUnsignedLong 150 data.get_height)
    (hlen : data.get_data.length ≤
      reflectUnsignedLong 300 data.get_width * reflectUnsignedLong 150 data.get_height * 4) :
    drawToCanvas data canvas =
      ({ width := reflectUnsignedLong 300 data.get_width,
         height := reflectUnsignedLong 150 data.get_height,
         bitmap := premultiplied (data.get_data ++
           List.replicate (reflectUnsignedLong 300 data.get_width *
             reflectUnsignedLong 150 data.get_height * 4 - data.get_data.length) 0) },
        .ok ()) := by
  have hw' : reflectUnsignedLong 300 data.get_width ≠ 0 := by omega
  have hh' : reflectUnsignedLong 150 data.get_height ≠ 0 := by omega
  have hnot : ¬ reflectUnsignedLong 300 data.get_width *
      reflectUnsignedLong 150 data.get_height * 4 < data.get_data.length := by omega
  simp only [drawToCanvas, Canvas.setWidth, Canvas.setHeight, createImageData, TypedArray.set, hw',
    hh', or_self, if_false, List.length_replicate, hnot, List.drop_replicate]
  congr 1
  have hbm := putImageData_bitmap_of_same_size
    { width := reflectUnsignedLong 300 data.get_width,
      height := reflectUnsignedLong 150 data.get_height,
      bitmap := List.replicate (reflectUnsignedLong 300 data.get_width *
        reflectUnsignedLong 150 data.get_height * 4) 0 }
    { width := reflectUnsignedLong 300 data.get_width,
      height := reflectUnsignedLong 150 data.get_height,
      data := data.get_data ++
        List.replicate (reflectUnsignedLong 300 data.get_width *
          reflectUnsignedLong 150 data.get_height * 4 - data.get_data.length) 0 }
    rfl rfl (by simp; omega)
  simp only [putImageData] at hbm ⊢
  simp only [hbm]

theorem drawToCanvas_size (data : ImageRawData) (canvas : Canvas) :
    (drawToCanvas data canvas).1.width = reflectUnsignedLong 300 data.get_width ∧
      (drawToCanvas data canvas).1.height = reflectUnsignedLong 150 data.get_height := by
  by_cases hz : reflectUnsignedLong 300 data.get_width = 0 ∨
      reflectUnsignedLong 150 data.get_height = 0
  · rw [drawToCanvas_of_zero data canvas hz]; exact ⟨rfl, rfl⟩
  · have hw : 0 < reflectUnsignedLong 300 data.get_width := by omega
    have hh : 0 < reflectUnsignedLong 150 data.get_height := by omega
    by_cases hlen : data.get_data.length ≤
        reflectUnsignedLong 300 data.get_width * reflectUnsignedLong 150 data.get_height * 4
    · rw [drawToCanvas_of_le data canvas hw hh hlen]; exact ⟨rfl, rfl⟩
    · rw [drawToCanvas_of_long data canvas hw hh (by omega)]; exact ⟨rfl, rfl⟩

theorem drawToCanvas_of_error (data : ImageRawData) (canvas : Canvas) (e : JSError)
    (h : (drawToCanvas data canvas).2 = .error e) :
    (drawToCanvas data canvas).1 =
      { width := reflectUnsignedLong 300 data.get_width,
        height := reflectUnsignedLong 150 data.get_height,
        bitmap := List.replicate (reflectUnsignedLong 300 data.get_width *
          reflectUnsignedLong 150 data.get_height * 4) 0 } := by
  by_cases hz : reflectUnsignedLong 300 data.get_width = 0 ∨
      reflectUnsignedLong 150 data.get_height = 0
  · rw [drawToCanvas_of_zero data canvas hz]
    rcases hz with hz | hz <;> simp [hz]
  · have hw : 0 < reflectUnsignedLong 300 data.get_width := by omega
    have hh : 0 < reflectUnsignedLong 150 data.get_height := by omega
    by_cases hlen : data.get_data.length ≤
        reflectUnsignedLong 300 data.get_width * reflectUnsignedLong 150 data.get_height * 4
    · rw [drawToCanvas_of_le data canvas hw hh hlen] at h
      simp at h
    · rw [drawToCanvas_of_long data canvas hw hh (by omega)]

theorem drawToCanvas_independent_of_canvas (data : ImageRawData) (canvas canvas' : Canvas) :
    drawToCanvas data canvas' = drawToCanvas data canvas := by
  by_cases hz : reflectUnsignedLong 300 data.get_width = 0 ∨
      reflectUnsignedLong 150 data.get_height = 0
  · rw [drawToCanvas_of_zero data canvas hz, drawToCanvas_of_zero data canvas' hz]
  · have hw : 0 < reflectUnsignedLong 300 data.get_width := by omega
    have hh : 0 < reflectUnsignedLong 150 data.get_height := by omega
    by_cases hlen : data.get_data.length ≤
        reflectUnsignedLong 300 data.get_width * reflectUnsignedLong 150 data.get_height * 4
    · rw [drawToCanvas_of_le data canvas hw hh hlen, drawToCanvas_of_le data canvas' hw hh hlen]
    · rw [drawToCanvas_of_long data canvas hw hh (by omega),
        drawToCanvas_of_long data canvas' hw hh (by omega)]

theorem readPixels_premultiplied_of_opaque (width height : Nat) (data : List Byte)
    (hlen : data.length = width * height * 4) (hop : IsOpaque data) :
    Canvas.readPixels { width := width, height := height, bitmap := premultiplied data } =
      data := by
  apply List.ext_getElem
  · simp [Canvas.readPixels, hlen]
  · intro i h₁ h₂
    have hidx : i / 4 * 4 + i % 4 = i := Nat.div_add_mod' i 4
    have hmod : i % 4 < 4 := Nat.mod_lt _ (by norm_num)
    have hj : i / 4 * 4 + 3 < data.length := by omega
    have hjmod : (i / 4 * 4 + 3) % 4 = 3 := by omega
    have halpha : data.getD (i / 4 * 4 + 3) 0 = 255 := hop _ hj hjmod
    have hpa : (premultiplied data).getD (i / 4 * 4 + 3) 0 = 255 := by
      rw [List.getD_eq_getElem _ _ (by simpa [premultiplied] using hj)]
      simp only [premultiplied, List.getElem_map, List.getElem_range, hjmod, if_true]
      have hdiv : (i / 4 * 4 + 3) / 4 * 4 + 3 = i / 4 * 4 + 3 := by omega
      rw [hdiv, halpha]
    have hpi : (premultiplied data).getD i 0 =
        if i % 4 = 3 then 255 else premultiply (data.getD i 0) 255 := by
      rw [List.getD_eq_getElem _ _ (by simpa [premultiplied] using h₂)]
      simp only [premultiplied, List.getElem_map, List.getElem_range, halpha]
    simp only [Canvas.readPixels, List.getElem_map, List.getElem_range, hpa, hpi]
    by_cases h3 : i % 4 = 3
    · have hi : i / 4 * 4 + 3 = i := by omega
      rw [hi] at halpha
      rw [if_pos h3, ← halpha, List.getD_eq_getElem _ _ h₂]
    · rw [if_neg h3, if_neg h3, premultiply_opaque, unpremultiply_opaque,
        List.getD_eq_getElem _ _ h₂]

/-! ## Lemmas on the handlers -/

theorem render_calls (get_image : GetImage) (options : Options) (point : Option Point)
    (page : Page) :
    (render (.ok get_image) options point page).1.calls =
      page.calls ++ [{ width := options.width, height := options.height,
                       point := match point with
                         | none => sentinel
                         | some point => point }] := by
  unfold render getData
  cases point <;> simp only [sentinel] <;> split <;> simp_all

theorem getOptions_width_of_default (formData : FormData)
    (h : formData.get "width" = .null ∨ formData.get "width" = .string "") :
    (getOptions formData).width = .fin 300 := by
  rcases h with h | h <;> simp [getOptions, h, JSValue.or, ToBoolean, Number]

theorem getOptions_height_of_default (formData : FormData)
    (h : formData.get "height" = .null ∨ formData.get "height" = .string "") :
    (getOptions formData).height = .fin 300 := by
  rcases h with h | h <;> simp [getOptions, h, JSValue.or, ToBoolean, Number]

theorem getOptions_width_of_string (formData : FormData) (s : String)
    (h : formData.get "width" = .string s) (hs : s ≠ "") :
    (getOptions formData).width = StringToNumber s := by
  simp [getOptions, h, JSValue.or, ToBoolean, Number, hs]

theorem getOptions_height_of_string (formData : FormData) (s : String)
    (h : formData.get "height" = .string s) (hs : s ≠ "") :
    (getOptions formData).height = StringToNumber s := by
  simp [getOptions, h, JSValue.or, ToBoolean, Number, hs]

theorem ne_empty_of_isDecimalNumeral {s : String} {n : Nat} (h : IsDecimalNumeral s n) :
    s ≠ "" := by
  rintro rfl
  exact h.1 rfl

theorem parse_zero : parseStringNumericLiteral "0" = some (.decimal false 0 0) := by decide

theorem parse_minus_five : parseStringNumericLiteral "-5" = some (.decimal true 5 0) := by decide

theorem roundBinary64_neg_five : roundBinary64 (-5) = .fin (-5) := by
  have h := roundBinary64_of_isBinary64
    (isBinary64_neg (isBinary64_natCast (n := 5) (by norm_num)))
  simpa using h

theorem getOptions_zero_minus_five :
    getOptions [("width", "0"), ("height", "-5")] = { width := .fin 0, height := .fin (-5) } := by
  have h0 : StringToNumber "0" = .fin 0 := by
    simp [StringToNumber, parse_zero, StringNumericValue, roundBinary64]
  have h5 : StringToNumber "-5" = .fin (-5) := by
    simp [StringToNumber, parse_minus_five, StringNumericValue, roundBinary64_neg_five]
  simp [getOptions, FormData.get, JSValue.or, ToBoolean, Number, h0, h5]

theorem parse_ten_point_one :
    parseStringNumericLiteral "10.1" = some (.decimal false 101 (-1)) := by decide

theorem StringToNumber_ten_point_one :
    StringToNumber "10.1" = .fin (5685794529555251 / 562949953421312) := by
  have hm : roundHalfEven ((101 * 10 ^ (-1 : ℤ) : ℚ) / 2 ^ ((3 : ℤ) - 52)) =
      5685794529555251 :=
    roundHalfEven_of_lt (by norm_num) (by norm_num)
  simp only [StringToNumber, parse_ten_point_one, StringNumericValue]
  have h := roundBinary64_of_pos (q := 101 * 10 ^ (-1 : ℤ)) (e := 3) (m := 5685794529555251)
    (by norm_num) (by norm_num) (by norm_num) hm (by norm_num) (by norm_num)
  rw [show ((101 : ℕ) : ℚ) = 101 by norm_num, h]
  norm_num
theorem render_ok (get_image : GetImage) (options : Options) (point : Option Point)
    (page : Page) (data : ImageRawData)
    (h : get_image { width := options.width, height := options.height,
                     point := match point with
                       | none => sentinel
                       | some point => point } = .ok data) :
    (render (.ok get_image) options point page).1.canvas = (drawToCanvas data page.canvas).1 ∧
    (render (.ok get_image) options point page).2 = (drawToCanvas data page.canvas).2 := by
  unfold render getData
  cases point <;> simp only [sentinel] at h ⊢ <;> rw [h] <;> exact ⟨rfl, rfl⟩

/-! ## The properties -/

set_option maxRecDepth 100000

/-! ## C1: dimensions are not validated -/

/-- C1, counterexample.  A form holding width "0" and height "-5" yields the
options (0, -5), neither of them positive, and `getData` called with them on a
loaded engine invokes `get_image` with exactly that width and height and
returns the engine's image: nothing fails before the engine is reached. -/
theorem getData_reaches_engine_with_nonpositive_dimensions :
    (getOptions [("width", "0"), ("height", "-5")]).width.isPositive = false ∧
    (getOptions [("width", "0"), ("height", "-5")]).height.isPositive = false ∧
    getData (.ok fun _ => .ok { get_width := 0, get_height := 0, get_data := [] })
        (getOptions [("width", "0"), ("height", "-5")]).width
        (getOptions [("width", "0"), ("height", "-5")]).height none [] =
      ([{ width := .fin 0, height := .fin (-5), point := sentinel }],
        .ok { get_width := 0, get_height := 0, get_data := [] }) := by
  rw [getOptions_zero_minus_five]
  refine ⟨?_, ?_, rfl⟩ <;> simp [JSNumber.isPositive]

/-- C1, as amended.  Whenever the width or the height that `getOptions` reads
from the form is not positive (zero, negative or NaN), `getData` called with
those options on a loaded engine still makes one call to `get_image`, carrying
exactly that width and height, and its outcome is the outcome of that call:
the dimensions are not validated and no error is raised before the engine. -/
theorem getData_does_not_validate_dimensions (get_image : GetImage) (formData : FormData)
    (point : Option Point) (calls : List EngineCall)
    (_h : (getOptions formData).width.isPositive = false ∨
      (getOptions formData).height.isPositive = false) :
    ∃ call : EngineCall,
      call.width = (getOptions formData).width ∧
      call.height = (getOptions formData).height ∧
      getData (.ok get_image) (getOptions formData).width (getOptions formData).height
        point calls = (calls ++ [call], get_image call) :=
  ⟨_, rfl, rfl, rfl⟩

/-- C1, witness: the amended statement at the form with width "0" and height
"-5". -/
theorem getData_does_not_validate_dimensions_witness :
    ((getOptions [("width", "0"), ("height", "-5")]).width.isPositive = false ∨
      (getOptions [("width", "0"), ("height", "-5")]).height.isPositive = false) ∧
    ∃ call : EngineCall,
      call.width = (getOptions [("width", "0"), ("height", "-5")]).width ∧
      call.height = (getOptions [("width", "0"), ("height", "-5")]).height ∧
      getData (.ok fun _ => .error (.engine "unreachable"))
        (getOptions [("width", "0"), ("height", "-5")]).width
        (getOptions [("width", "0"), ("height", "-5")]).height none [] =
        ([] ++ [call], (fun _ => .error (.engine "unreachable")) call) :=
  have h : (getOptions [("width", "0"), ("height", "-5")]).width.isPositive = false ∨
      (getOptions [("width", "0"), ("height", "-5")]).height.isPositive = false := by
    rw [getOptions_zero_minus_five]; simp [JSNumber.isPositive]
  ⟨h, getData_does_not_validate_dimensions _ _ none [] h⟩

/-! ## C2: the buffer length is not checked -/

/-- C2, counterexample.  For a response that declares 10x10 and carries 100
bytes (400 expected), `drawToCanvas` returns normally and the surface, 1x1
before, is 10x10 afterwards with the 100 bytes followed by 300 zero bytes. -/
theorem drawToCanvas_accepts_short_buffer :
    drawToCanvas { get_width := 10, get_height := 10, get_data := List.replicate 100 255 }
        { width := 1, height := 1, bitmap := [9, 9, 9, 9] } =
      ({ width := 10, height := 10,
         bitmap := List.replicate 100 255 ++ List.replicate 300 0 }, .ok ()) := by
  decide

/-- C2, as amended.  For every response whose reported width and height lie
in the range of the canvas attributes (at most 2147483647) and whose buffer
length differs from reported width * reported height * 4, `drawToCanvas`
makes no length check of its own.  A shorter buffer is drawn: the call returns
normally, the surface has the reported size and its bitmap stores the buffer
followed by zero bytes, colour channels premultiplied by alpha.  A longer
buffer makes the call throw (`RangeError` from the copy, or `IndexSizeError`
when a reported dimension is zero) after the surface has been given the
reported size and cleared. -/
theorem drawToCanvas_on_length_mismatch (data : ImageRawData) (canvas : Canvas)
    (hw : data.get_width ≤ 2147483647) (hh : data.get_height ≤ 2147483647)
    (_h : data.get_data.length ≠ data.get_width * data.get_height * 4) :
    (data.get_data.length < data.get_width * data.get_height * 4 →
      drawToCanvas data canvas =
        ({ width := data.get_width, height := data.get_height,
           bitmap := premultiplied (data.get_data ++
             List.replicate (data.get_width * data.get_height * 4 - data.get_data.length) 0) },
          .ok ())) ∧
    (data.get_width * data.get_height * 4 < data.get_data.length →
      drawToCanvas data canvas =
        ({ width := data.get_width, height := data.get_height,
           bitmap := List.replicate (data.get_width * data.get_height * 4) 0 },
          .error (if data.get_width = 0 ∨ data.get_height = 0 then .IndexSizeError
            else .RangeError))) := by
  have hrw := reflectUnsignedLong_of_le 300 hw
  have hrh := reflectUnsignedLong_of_le 150 hh
  constructor
  · intro hlt
    have hpw : 0 < data.get_width := by
      rcases Nat.eq_zero_or_pos data.get_width with h0 | h0
      · simp [h0] at hlt
      · exact h0
    have hph : 0 < data.get_height := by
      rcases Nat.eq_zero_or_pos data.get_height with h0 | h0
      · simp [h0] at hlt
      · exact h0
    have h := drawToCanvas_of_le data canvas (by rw [hrw]; exact hpw) (by rw [hrh]; exact hph)
      (by rw [hrw, hrh]; omega)
    rw [hrw, hrh] at h
    exact h
  · intro hgt
    by_cases hz : data.get_width = 0 ∨ data.get_height = 0
    · have h := drawToCanvas_of_zero data canvas (by rw [hrw, hrh]; exact hz)
      rw [hrw, hrh] at h
      rw [h, if_pos hz]
      rcases hz with hz | hz <;> simp [hz]
    · have h := drawToCanvas_of_long data canvas (by rw [hrw]; omega) (by rw [hrh]; omega)
        (by rw [hrw, hrh]; exact hgt)
      rw [hrw, hrh] at h
      rw [h, if_neg hz]

/-- C2, witness: the amended statement at a 2x1 response carrying 5 bytes
(8 expected), on a 1x1 surface; the first pixel, of alpha 4, is stored with
its colour channels premultiplied to zero, and the surface reads back as
(0, 0, 0, 4) and (0, 0, 0, 0). -/
theorem drawToCanvas_on_length_mismatch_witness :
    drawToCanvas { get_width := 2, get_height := 1, get_data := [1, 2, 3, 4, 5] }
        { width := 1, height := 1, bitmap := [9, 9, 9, 9] } =
      ({ width := 2, height := 1, bitmap := premultiplied [1, 2, 3, 4, 5, 0, 0, 0] }, .ok ()) ∧
    premultiplied [1, 2, 3, 4, 5, 0, 0, 0] = [0, 0, 0, 4, 0, 0, 0, 0] ∧
    Canvas.readPixels { width := 2, height := 1, bitmap := [0, 0, 0, 4, 0, 0, 0, 0] } =
      [0, 0, 0, 4, 0, 0, 0, 0] :=
  ⟨(drawToCanvas_on_length_mismatch
    { get_width := 2, get_height := 1, get_data := [1, 2, 3, 4, 5] }
    { width := 1, height := 1, bitmap := [9, 9, 9, 9] } (by decide) (by decide) (by decide)).1
    (by decide), by decide, by decide⟩

/-! ## C3: what a failed render leaves on the surface -/

/-- C3, counterexample.  The engine answers a submit with a 1x1 image carrying
5 bytes.  `drawToCanvas` throws `RangeError` while copying the buffer, and the
surface, 2x1 with a drawn frame before, is 1x1 and blank afterwards. -/
theorem submit_failure_resizes_surface :
    (submitHandler
        (.ok fun _ => .ok { get_width := 1, get_height := 1, get_data := [1, 2, 3, 4, 5] }) []
        { canvas := { width := 2, height := 1, bitmap := [9, 9, 9, 9, 9, 9, 9, 9] },
          calls := [] }).2 = .error .RangeError ∧
    (submitHandler
        (.ok fun _ => .ok { get_width := 1, get_height := 1, get_data := [1, 2, 3, 4, 5] }) []
        { canvas := { width := 2, height := 1, bitmap := [9, 9, 9, 9, 9, 9, 9, 9] },
          calls := [] }).1.canvas = { width := 1, height := 1, bitmap := [0, 0, 0, 0] } := by
  decide

/-- C3, as amended.  When a render fails because the engine boundary fails
(the module does not load, or `get_image` throws), the surface afterwards is
the surface before.  When it fails inside `drawToCanvas`, the surface has
already been assigned the width and height reported by the engine (kept as
they are when at most 2147483647, otherwise as an `unsigned long` attribute
with default 300, respectively 150, takes them) and been cleared: its
contents afterwards are all zero bytes, whatever it showed before.  All three
handlers are `render` applied to the options read from the form. -/
theorem render_failure_surface (pkg : Pkg) (options : Options) (point : Option Point)
    (page : Page) (e : JSError) (h : (render pkg options point page).2 = .error e) :
    ((getData pkg options.width options.height point page.calls).2 = .error e ∧
      (render pkg options point page).1.canvas = page.canvas) ∨
    (∃ data, (getData pkg options.width options.height point page.calls).2 = .ok data ∧
      (drawToCanvas data page.canvas).2 = .error e ∧
      (render pkg options point page).1.canvas =
        { width := reflectUnsignedLong 300 data.get_width,
          height := reflectUnsignedLong 150 data.get_height,
          bitmap := List.replicate (reflectUnsignedLong 300 data.get_width *
            reflectUnsignedLong 150 data.get_height * 4) 0 } ∧
      (data.get_width ≤ 2147483647 → data.get_height ≤ 2147483647 →
        (render pkg options point page).1.canvas =
          { width := data.get_width, height := data.get_height,
            bitmap := List.replicate (data.get_width * data.get_height * 4) 0 })) := by
  unfold render at h ⊢
  rcases hg : getData pkg options.width options.height point page.calls with ⟨calls, r⟩
  cases r with
  | error e' =>
    rw [hg] at h
    simp only at h
    left
    simp_all
  | ok data =>
    rw [hg] at h
    simp only at h
    right
    refine ⟨data, rfl, h, drawToCanvas_of_error data page.canvas e h, ?_⟩
    intro hw hh
    have hc := drawToCanvas_of_error data page.canvas e h
    rw [reflectUnsignedLong_of_le 300 hw, reflectUnsignedLong_of_le 150 hh] at hc
    exact hc

/-- C3, witness: the amended statement for a submit whose engine call throws;
the 2x1 frame on the surface is kept. -/
theorem render_failure_surface_witness :
    (submitHandler (.ok fun _ => .error (.engine "boom")) []
        { canvas := { width := 2, height := 1, bitmap := [9, 9, 9, 9, 9, 9, 9, 9] },
          calls := [] }).1.canvas =
      { width := 2, height := 1, bitmap := [9, 9, 9, 9, 9, 9, 9, 9] } := by
  have h := render_failure_surface (.ok fun _ => .error (.engine "boom")) (getOptions []) none
    { canvas := { width := 2, height := 1, bitmap := [9, 9, 9, 9, 9, 9, 9, 9] }, calls := [] }
    (.engine "boom") rfl
  rcases h with ⟨-, h⟩ | ⟨data, hd, -⟩
  · exact h
  · simp [getData] at hd

/-! ## C4: the call `getData` makes -/

/-- C4.  For every width, height and optional focus point, `getData` on a
loaded engine makes exactly one call to `get_image`, with that width, that
height and, as focus, the point (-1000, -1000) when no point is given and the
given point unchanged otherwise, whatever its coordinates.  Its outcome is the
outcome of that call, so the focus point adds no failure of its own; when the
engine module does not load the outcome is the load error for every focus
point alike. -/
theorem getData_engine_call (get_image : GetImage) (width height : JSNumber)
    (calls : List EngineCall) :
    getData (.ok get_image) width height none calls =
      (calls ++ [{ width := width, height := height,
                   point := { x := .fin (-1000), y := .fin (-1000) } }],
        get_image { width := width, height := height,
                    point := { x := .fin (-1000), y := .fin (-1000) } }) ∧
    (∀ p : Point, getData (.ok get_image) width height (some p) calls =
      (calls ++ [{ width := width, height := height, point := p }],
        get_image { width := width, height := height, point := p })) ∧
    (∀ (e : JSError) (point : Option Point),
      getData (.error e) width height point calls = (calls, .error e)) :=
  ⟨rfl, fun _ => rfl, fun _ _ => rfl⟩

/-! ## C5: the focus point of a pointer-down event -/

/-- C5, counterexample.  Two pointer-down events whose focus point is not the
exact difference.  At viewport x = 9007199254740992 (2^53) on a target whose
left edge is at -1, the exact difference 9007199254740993 is not a binary64
value and the focus point passed on has x = 9007199254740992.  At viewport
x = 60 on a target whose left edge is at 10.1 (the binary64 value that the
literal 10.1 denotes), the focus point passed on has
x = 7022800668930867 / 2^47, the binary64 value nearest to 49.9, which is not
the exact difference of the two coordinates. -/
theorem mousedown_focus_point_rounds :
    (mousedownHandler (.ok fun _ => .error (.engine "no image")) []
      { clientX := .fin 9007199254740992, clientY := .fin 80,
        rectLeft := .fin (-1), rectTop := .fin 10 }
      { canvas := { width := 300, height := 150, bitmap := [] }, calls := [] }).1.calls =
      [{ width := .fin 300, height := .fin 300,
         point := { x := .fin 9007199254740992, y := .fin 70 } }] ∧
    JSNumber.fin 9007199254740992 ≠ .fin (9007199254740992 - (-1)) ∧
    StringToNumber "10.1" = .fin (5685794529555251 / 562949953421312) ∧
    (mousedownHandler (.ok fun _ => .error (.engine "no image")) []
      { clientX := .fin 60, clientY := .fin 80,
        rectLeft := .fin (5685794529555251 / 562949953421312), rectTop := .fin 10 }
      { canvas := { width := 300, height := 150, bitmap := [] }, calls := [] }).1.calls =
      [{ width := .fin 300, height := .fin 300,
         point := { x := .fin (7022800668930867 / 140737488355328), y := .fin 70 } }] ∧
    JSNumber.fin (7022800668930867 / 140737488355328) ≠
      .fin (60 - 5685794529555251 / 562949953421312) := by
  have hy : JSNumber.fin 80 - JSNumber.fin 10 = .fin 70 := by
    show roundBinary64 (80 - 10) = _
    have h : (80 : ℚ) - 10 = ((70 : ℕ) : ℚ) := by norm_num
    rw [h, roundBinary64_of_isBinary64 (isBinary64_natCast (by norm_num))]
    norm_num
  refine ⟨?_, ?_, StringToNumber_ten_point_one, ?_, ?_⟩
  · rw [mousedownHandler, render_calls, getOptions_width_of_default [] (Or.inl rfl),
      getOptions_height_of_default [] (Or.inl rfl)]
    have hx : JSNumber.fin 9007199254740992 - JSNumber.fin (-1) = .fin 9007199254740992 := by
      show roundBinary64 (9007199254740992 - (-1)) = _
      have h : (9007199254740992 : ℚ) - (-1) = 9007199254740993 := by norm_num
      rw [h, roundBinary64_two_pow_53_add_one]
    simp [hx, hy]
  · intro h
    have h' := JSNumber.fin.inj h
    norm_num at h'
  · rw [mousedownHandler, render_calls, getOptions_width_of_default [] (Or.inl rfl),
      getOptions_height_of_default [] (Or.inl rfl)]
    have hx : JSNumber.fin 60 - JSNumber.fin (5685794529555251 / 562949953421312) =
        .fin (7022800668930867 / 140737488355328) := roundBinary64_sixty_sub
    simp only [hx, hy, List.nil_append]
  · intro h
    have h' := JSNumber.fin.inj h
    norm_num at h'

/-- C5, as amended.  For every pointer-down event at viewport coordinates
(px, py) on a target whose bounding rectangle has its top-left corner at
(ox, oy), the mousedown handler calls the engine once, with the options read
from the form and the focus point (px - ox, py - oy) as the `-` operator
computes it: on finite coordinates, the exact difference rounded to binary64.
Whenever the exact differences are binary64 values, the focus point is
exactly (px - ox, py - oy). -/
theorem mousedown_focus_point (get_image : GetImage) (formData : FormData) (page : Page) :
    (∀ e : MouseEvent,
      (mousedownHandler (.ok get_image) formData e page).1.calls =
        page.calls ++ [{ width := (getOptions formData).width
                         height := (getOptions formData).height
                         point := { x := e.clientX - e.rectLeft, y := e.clientY - e.rectTop } }]) ∧
    (∀ px ox : ℚ, JSNumber.fin px - JSNumber.fin ox = roundBinary64 (px - ox)) ∧
    (∀ px py ox oy : ℚ, IsBinary64 (px - ox) → IsBinary64 (py - oy) →
      (mousedownHandler (.ok get_image) formData
        { clientX := .fin px, clientY := .fin py, rectLeft := .fin ox, rectTop := .fin oy }
        page).1.calls =
        page.calls ++ [{ width := (getOptions formData).width
                         height := (getOptions formData).height
                         point := { x := .fin (px - ox), y := .fin (py - oy) } }]) := by
  refine ⟨?_, fun _ _ => rfl, ?_⟩
  · intro e
    exact render_calls get_image (getOptions formData) _ page
  · intro px py ox oy hx hy
    rw [← roundBinary64_of_isBinary64 hx, ← roundBinary64_of_isBinary64 hy]
    exact render_calls get_image (getOptions formData) _ page

/-- C5, witness: a pointer at (60, 80) on a surface whose top-left corner is at
(10, 10) gives the focus point (50, 70). -/
theorem mousedown_focus_point_witness :
    (mousedownHandler (.ok fun _ => .error (.engine "no image")) []
      { clientX := .fin 60, clientY := .fin 80, rectLeft := .fin 10, rectTop := .fin 10 }
      { canvas := { width := 300, height := 150, bitmap := [] }, calls := [] }).1.calls =
      [{ width := .fin 300, height := .fin 300, point := { x := .fin 50, y := .fin 70 } }] := by
  have hx : IsBinary64 ((60 : ℚ) - 10) := by
    have h : (60 : ℚ) - 10 = ((50 : ℕ) : ℚ) := by norm_num
    rw [h]; exact isBinary64_natCast (by norm_num)
  have hy : IsBinary64 ((80 : ℚ) - 10) := by
    have h : (80 : ℚ) - 10 = ((70 : ℕ) : ℚ) := by norm_num
    rw [h]; exact isBinary64_natCast (by norm_num)
  have h := (mousedown_focus_point (fun _ => .error (.engine "no image")) []
    { canvas := { width := 300, height := 150, bitmap := [] }, calls := [] }).2.2 60 80 10 10 hx hy
  rw [h, getOptions_width_of_default [] (Or.inl rfl), getOptions_height_of_default [] (Or.inl rfl)]
  norm_num

/-! ## C6: the default dimensions -/

/-- C6, counterexample.  With the width field holding the non-numeric string
"abc", `getOptions` returns NaN for the width, not 300. -/
theorem getOptions_nonnumeric_is_nan :
    (getOptions [("width", "abc"), ("height", "abc")]).width = .nan ∧
    (getOptions [("width", "abc"), ("height", "abc")]).height = .nan ∧
    (getOptions [("width", "abc"), ("height", "abc")]).width ≠ .fin 300 := by
  have hw : (getOptions [("width", "abc"), ("height", "abc")]).width = .nan := by decide
  have hh : (getOptions [("width", "abc"), ("height", "abc")]).height = .nan := by decide
  exact ⟨hw, hh, by rw [hw]; exact JSNumber.noConfusion⟩

/-- C6, as amended.  For every form state in which the width (respectively
height) field is absent or empty, `getOptions` returns 300 for that dimension,
and a page load in which both are absent or empty requests width 300 and
height 300 with the no-focus point (-1000, -1000).  A field holding a
non-empty string is converted as it stands: when the string is not a numeric
literal the dimension is NaN. -/
theorem getOptions_defaults (formData : FormData) :
    ((formData.get "width" = .null ∨ formData.get "width" = .string "") →
      (getOptions formData).width = .fin 300) ∧
    ((formData.get "height" = .null ∨ formData.get "height" = .string "") →
      (getOptions formData).height = .fin 300) ∧
    ((formData.get "width" = .null ∨ formData.get "width" = .string "") →
      (formData.get "height" = .null ∨ formData.get "height" = .string "") →
      ∀ (get_image : GetImage) (page : Page),
        (onload (.ok get_image) formData page).1.calls =
          page.calls ++ [{ width := .fin 300, height := .fin 300, point := sentinel }]) ∧
    (∀ s : String, s ≠ "" → parseStringNumericLiteral s = none →
      (formData.get "width" = .string s → (getOptions formData).width = .nan) ∧
      (formData.get "height" = .string s → (getOptions formData).height = .nan)) := by
  refine ⟨getOptions_width_of_default formData, getOptions_height_of_default formData, ?_, ?_⟩
  · intro hw hh get_image page
    have h := render_calls get_image (getOptions formData) none page
    rw [getOptions_width_of_default formData hw, getOptions_height_of_default formData hh] at h
    exact h
  · intro s hs hparse
    constructor
    · intro h
      rw [getOptions_width_of_string formData s h hs]
      simp [StringToNumber, hparse]
    · intro h
      rw [getOptions_height_of_string formData s h hs]
      simp [StringToNumber, hparse]

/-- C6, witness: a page load on a form with no width and an empty height field
requests 300 x 300 with the no-focus point. -/
theorem getOptions_defaults_witness :
    (onload (.ok fun _ => .error (.engine "no image")) [("height", "")]
      { canvas := { width := 300, height := 150, bitmap := [] }, calls := [] }).1.calls =
      [{ width := .fin 300, height := .fin 300, point := sentinel }] :=
  (getOptions_defaults [("height", "")]).2.2.1 (Or.inl (by decide)) (Or.inr (by decide)) _
    { canvas := { width := 300, height := 150, bitmap := [] }, calls := [] }

/-! ## C7: submitting decimal dimensions -/

/-- C7, counterexample.  A form whose width field holds the decimal numeral of
9007199254740993 (2^53 + 1) and whose height field holds "1": the request the
submit handler dispatches has width 9007199254740992, not 9007199254740993. -/
theorem submit_large_width_is_rounded :
    IsDecimalNumeral "9007199254740993" 9007199254740993 ∧
    IsDecimalNumeral "1" 1 ∧
    (submitHandler (.ok fun _ => .error (.engine "no image"))
      [("width", "9007199254740993"), ("height", "1")]
      { canvas := { width := 300, height := 150, bitmap := [] }, calls := [] }).1.calls =
      [{ width := .fin 9007199254740992, height := .fin 1,
         point := { x := .fin (-1000), y := .fin (-1000) } }] ∧
    JSNumber.fin 9007199254740992 ≠ .fin 9007199254740993 := by
  have hw : IsDecimalNumeral "9007199254740993" 9007199254740993 := by decide
  have hh : IsDecimalNumeral "1" 1 := by decide
  refine ⟨hw, hh, ?_, ?_⟩
  · rw [submitHandler, render_calls,
      getOptions_width_of_string _ "9007199254740993" (by decide) (by decide),
      getOptions_height_of_string _ "1" (by decide) (by decide),
      StringToNumber_of_decimalNumeral _ _ hw,
      StringToNumber_of_decimalNumeral_of_le _ _ hh (by norm_num)]
    have h : ((9007199254740993 : ℕ) : ℚ) = 9007199254740993 := by norm_num
    rw [h, roundBinary64_two_pow_53_add_one]
    simp [sentinel]
  · intro h
    have h' := JSNumber.fin.inj h
    norm_num at h'

/-- C7, as amended.  For every form whose width and height fields hold decimal
numerals of positive integers w and h of at most 9007199254740992 (2^53),
submitting the form makes exactly one call to the engine, with width w,
height h and the no-focus point (-1000, -1000).  When the engine answers that
call with an image reporting w x h, both at most 2147483647, the surface takes
that size and its bitmap holds w * h * 4 bytes: a buffer of that length is
drawn, a longer one makes the handler throw `RangeError`. -/
theorem submit_decimal_dimensions (get_image : GetImage) (formData : FormData) (page : Page)
    (sw sh : String) (w h : Nat) (hw : 0 < w) (hh : 0 < h)
    (hwb : w ≤ 9007199254740992) (hhb : h ≤ 9007199254740992)
    (hfw : formData.get "width" = .string sw) (hfh : formData.get "height" = .string sh)
    (hsw : IsDecimalNumeral sw w) (hsh : IsDecimalNumeral sh h) :
    (submitHandler (.ok get_image) formData page).1.calls =
      page.calls ++ [{ width := .fin w, height := .fin h,
                       point := { x := .fin (-1000), y := .fin (-1000) } }] ∧
    ∀ data : ImageRawData,
      get_image { width := .fin w, height := .fin h,
                  point := { x := .fin (-1000), y := .fin (-1000) } } = .ok data →
      data.get_width = w → data.get_height = h → w ≤ 2147483647 → h ≤ 2147483647 →
      (submitHandler (.ok get_image) formData page).1.canvas.width = w ∧
      (submitHandler (.ok get_image) formData page).1.canvas.height = h ∧
      (submitHandler (.ok get_image) formData page).1.canvas.bitmap.length = w * h * 4 ∧
      (data.get_data.length = w * h * 4 →
        (submitHandler (.ok get_image) formData page).2 = .ok ()) ∧
      (w * h * 4 < data.get_data.length →
        (submitHandler (.ok get_image) formData page).2 = .error .RangeError) := by
  have how : (getOptions formData).width = .fin w := by
    rw [getOptions_width_of_string formData sw hfw (ne_empty_of_isDecimalNumeral hsw),
      StringToNumber_of_decimalNumeral_of_le sw w hsw (by norm_num; exact hwb)]
  have hoh : (getOptions formData).height = .fin h := by
    rw [getOptions_height_of_string formData sh hfh (ne_empty_of_isDecimalNumeral hsh),
      StringToNumber_of_decimalNumeral_of_le sh h hsh (by norm_num; exact hhb)]
  constructor
  · have hc := render_calls get_image (getOptions formData) none page
    rw [how, hoh] at hc
    exact hc
  · intro data hdata hdw hdh hwr hhr
    have hcall : get_image
        { width := (getOptions formData).width
          height := (getOptions formData).height
          point := match (none : Option Point) with
            | none => sentinel
            | some point => point } = .ok data := by
      rw [how, hoh]; exact hdata
    obtain ⟨hcanvas, hout⟩ := render_ok get_image (getOptions formData) none page data hcall
    have hrw : reflectUnsignedLong 300 data.get_width = w := by
      rw [hdw]; exact reflectUnsignedLong_of_le 300 hwr
    have hrh : reflectUnsignedLong 150 data.get_height = h := by
      rw [hdh]; exact reflectUnsignedLong_of_le 150 hhr
    simp only [submitHandler]
    rw [hcanvas, hout]
    by_cases hlen : data.get_data.length ≤ w * h * 4
    · have hd := drawToCanvas_of_le data page.canvas (by rw [hrw]; exact hw)
        (by rw [hrh]; exact hh) (by rw [hrw, hrh]; exact hlen)
      rw [hrw, hrh] at hd
      rw [hd]
      refine ⟨rfl, rfl, ?_, fun _ => rfl, fun hgt => absurd hgt (by omega)⟩
      simp [premultiplied]
      omega
    · have hd := drawToCanvas_of_long data page.canvas (by rw [hrw]; exact hw)
        (by rw [hrh]; exact hh) (by rw [hrw, hrh]; omega)
      rw [hrw, hrh] at hd
      rw [hd]
      exact ⟨rfl, rfl, by simp, fun heq => absurd heq (by omega), fun _ => rfl⟩

/-- C7, witness: width "150" and height "200" give the request
(150, 200, no focus); when the engine answers with a 150 x 200 image of
120000 bytes the surface holds 120000 bytes and the draw returns normally. -/
theorem submit_decimal_dimensions_witness :
    (submitHandler
      (.ok fun _ => .ok { get_width := 150, get_height := 200,
                          get_data := List.replicate 120000 255 })
      [("width", "150"), ("height", "200")]
      { canvas := { width := 300, height := 150, bitmap := [] }, calls := [] }).1.calls =
      [{ width := .fin 150, height := .fin 200,
         point := { x := .fin (-1000), y := .fin (-1000) } }] ∧
    (submitHandler
      (.ok fun _ => .ok { get_width := 150, get_height := 200,
                          get_data := List.replicate 120000 255 })
      [("width", "150"), ("height", "200")]
      { canvas := { width := 300, height := 150, bitmap := [] },
        calls := [] }).1.canvas.bitmap.length = 150 * 200 * 4 ∧
    (submitHandler
      (.ok fun _ => .ok { get_width := 150, get_height := 200,
                          get_data := List.replicate 120000 255 })
      [("width", "150"), ("height", "200")]
      { canvas := { width := 300, height := 150, bitmap := [] }, calls := [] }).2 = .ok () ∧
    150 * 200 * 4 = 120000 := by
  have h := submit_decimal_dimensions
    (fun _ => .ok { get_width := 150, get_height := 200, get_data := List.replicate 120000 255 })
    [("width", "150"), ("height", "200")]
    { canvas := { width := 300, height := 150, bitmap := [] }, calls := [] }
    "150" "200" 150 200 (by decide) (by decide) (by decide) (by decide) (by decide) (by decide)
    (by decide) (by decide)
  have hd := h.2 _ rfl rfl rfl (by decide) (by decide)
  have hc := h.1
  have e1 : ((150 : ℕ) : ℚ) = 150 := by norm_num
  have e2 : ((200 : ℕ) : ℚ) = 200 := by norm_num
  rw [e1, e2] at hc
  exact ⟨hc, hd.2.2.1, hd.2.2.2.1 (List.length_replicate 120000 255), by decide⟩

/-! ## C8: the size of the surface after a draw -/

/-- C8, counterexample.  A response that reports 0 x 5 with an empty buffer is
well formed (0 = 0 * 5 * 4), yet `drawToCanvas` does not succeed on it:
`createImageData` throws `IndexSizeError`. -/
theorem drawToCanvas_fails_on_empty_image :
    ([] : List Byte).length = 0 * 5 * 4 ∧
    (drawToCanvas { get_width := 0, get_height := 5, get_data := [] }
      { width := 300, height := 150, bitmap := [] }).2 = .error .IndexSizeError := by
  decide

/-- C8, as amended.  For every response whose reported width and height are
at most 2147483647, the range of the canvas attributes, the surface's width
and height after `drawToCanvas` equal the reported ones, whatever the surface
was before and whether or not the call returns normally.  When moreover the
buffer length equals reported width * reported height * 4 and both reported
dimensions are positive, `drawToCanvas` succeeds. -/
theorem drawToCanvas_surface_size (data : ImageRawData) (canvas : Canvas)
    (hw : data.get_width ≤ 2147483647) (hh : data.get_height ≤ 2147483647) :
    (drawToCanvas data canvas).1.width = data.get_width ∧
    (drawToCanvas data canvas).1.height = data.get_height ∧
    (data.get_data.length = data.get_width * data.get_height * 4 →
      0 < data.get_width → 0 < data.get_height →
      (drawToCanvas data canvas).2 = .ok ()) := by
  have hrw := reflectUnsignedLong_of_le 300 hw
  have hrh := reflectUnsignedLong_of_le 150 hh
  have hs := drawToCanvas_size data canvas
  rw [hrw, hrh] at hs
  refine ⟨hs.1, hs.2, ?_⟩
  intro hlen hpw hph
  rw [drawToCanvas_of_le data canvas (by rw [hrw]; exact hpw) (by rw [hrh]; exact hph)
    (by rw [hrw, hrh]; omega)]

/-- C8, witness: a well-formed 1 x 2 response drawn on a 3 x 1 surface. -/
theorem drawToCanvas_surface_size_witness :
    (drawToCanvas { get_width := 1, get_height := 2, get_data := [1, 2, 3, 4, 5, 6, 7, 8] }
      { width := 3, height := 1, bitmap := List.replicate 12 9 }).1.width = 1 ∧
    (drawToCanvas { get_width := 1, get_height := 2, get_data := [1, 2, 3, 4, 5, 6, 7, 8] }
      { width := 3, height := 1, bitmap := List.replicate 12 9 }).1.height = 2 ∧
    (drawToCanvas { get_width := 1, get_height := 2, get_data := [1, 2, 3, 4, 5, 6, 7, 8] }
      { width := 3, height := 1, bitmap := List.replicate 12 9 }).2 = .ok () :=
  have h := drawToCanvas_surface_size
    { get_width := 1, get_height := 2, get_data := [1, 2, 3, 4, 5, 6, 7, 8] }
    { width := 3, height := 1, bitmap := List.replicate 12 9 } (by decide) (by decide)
  ⟨h.1, h.2.1, h.2.2 (by decide) (by decide) (by decide)⟩

/-! ## C9: the contents of the surface after a draw -/

/-- C9, counterexample.  A well-formed 1 x 2 response whose pixels are not
opaque, (200, 100, 50, 128) and (9, 9, 9, 0): `drawToCanvas` returns normally
and the surface reads back (199, 100, 50, 128) and (0, 0, 0, 0), not the bytes
of the buffer. -/
theorem drawToCanvas_alters_translucent_pixels :
    ([200, 100, 50, 128, 9, 9, 9, 0] : List Byte).length = 1 * 2 * 4 ∧
    (drawToCanvas
      { get_width := 1, get_height := 2, get_data := [200, 100, 50, 128, 9, 9, 9, 0] }
      { width := 3, height := 1, bitmap := List.replicate 12 9 }).2 = .ok () ∧
    (drawToCanvas
      { get_width := 1, get_height := 2, get_data := [200, 100, 50, 128, 9, 9, 9, 0] }
      { width := 3, height := 1, bitmap := List.replicate 12 9 }).1.readPixels =
      [199, 100, 50, 128, 0, 0, 0, 0] := by
  decide

/-- C9, as amended.  For every response whose reported width and height are
at most 2147483647, whose buffer length equals reported width * reported
height * 4 and whose pixels are all fully opaque (alpha 255), and for every
prior state of the surface, the surface's pixel contents after
`drawToCanvas`, read row-major from the origin as RGBA bytes, equal the
response's buffer byte for byte.  For every response, what `drawToCanvas`
leaves and returns does not depend on the prior state of the surface: nothing
of the previous frame remains and nothing is blended with it. -/
theorem drawToCanvas_readPixels (data : ImageRawData) (canvas : Canvas)
    (hw : data.get_width ≤ 2147483647) (hh : data.get_height ≤ 2147483647)
    (hlen : data.get_data.length = data.get_width * data.get_height * 4)
    (hop : IsOpaque data.get_data) :
    (drawToCanvas data canvas).1.readPixels = data.get_data ∧
    ∀ canvas' : Canvas, drawToCanvas data canvas' = drawToCanvas data canvas := by
  refine ⟨?_, fun canvas' => drawToCanvas_independent_of_canvas data canvas canvas'⟩
  have hrw := reflectUnsignedLong_of_le 300 hw
  have hrh := reflectUnsignedLong_of_le 150 hh
  by_cases hz : data.get_width = 0 ∨ data.get_height = 0
  · rw [drawToCanvas_of_zero data canvas (by rw [hrw, hrh]; exact hz), hrw, hrh]
    have h0 : data.get_data.length = 0 := by
      rcases hz with hz | hz <;> simpa [hz] using hlen
    have hprod : data.get_width * data.get_height * 4 = 0 := by omega
    rw [List.length_eq_zero.mp h0]
    simp [Canvas.readPixels, hprod]
  · rw [drawToCanvas_of_le data canvas (by rw [hrw]; omega) (by rw [hrh]; omega)
      (by rw [hrw, hrh]; omega), hrw, hrh]
    have hsub : data.get_width * data.get_height * 4 - data.get_data.length = 0 := by omega
    simp only [hsub, List.replicate_zero, List.append_nil]
    exact readPixels_premultiplied_of_opaque _ _ _ hlen hop

/-- C9, witness: a well-formed, opaque 1 x 2 response drawn over a 3 x 1
frame reads back as its own buffer. -/
theorem drawToCanvas_readPixels_witness :
    (drawToCanvas
      { get_width := 1, get_height := 2, get_data := [1, 2, 3, 255, 5, 6, 7, 255] }
      { width := 3, height := 1, bitmap := List.replicate 12 9 }).1.readPixels =
      [1, 2, 3, 255, 5, 6, 7, 255] :=
  (drawToCanvas_readPixels
    { get_width := 1, get_height := 2, get_data := [1, 2, 3, 255, 5, 6, 7, 255] }
    { width := 3, height := 1, bitmap := List.replicate 12 9 }
    (by decide) (by decide) (by decide) (by decide)).1

/-! ## C10: the no-focus point is also a focus point -/

/-- C10.  For every width and height, `getData` called with the explicit focus
point (-1000, -1000) makes the same engine call, with the same outcome, as
`getData` called without a focus point, so the map from the optional focus
point to the engine's argument is not injective; for every other point given,
the engine call differs from the one made without a focus point. -/
theorem getData_focus_not_injective (get_image : GetImage) (width height : JSNumber)
    (calls : List EngineCall) :
    getData (.ok get_image) width height
        (some { x := .fin (-1000), y := .fin (-1000) }) calls =
      getData (.ok get_image) width height none calls ∧
    ¬ Function.Injective
        (fun point : Option Point => (getData (.ok get_image) width height point calls).1) ∧
    (∀ p : Point, p ≠ { x := .fin (-1000), y := .fin (-1000) } →
      (getData (.ok get_image) width height (some p) calls).1 ≠
        (getData (.ok get_image) width height none calls).1) := by
  refine ⟨rfl, ?_, ?_⟩
  · intro hinj
    have h := @hinj (some { x := .fin (-1000), y := .fin (-1000) }) none rfl
    exact Option.noConfusion h
  · intro p hp heq
    simp only [getData, List.append_cancel_left_eq, List.cons.injEq, EngineCall.mk.injEq,
      true_and, and_true] at heq
    exact hp heq

/-- C10, witness: the focus point (0, 0) leads to an engine call that differs
from the call made without a focus point. -/
theorem getData_focus_not_injective_witness :
    (getData (.ok fun _ => .error (.engine "no image")) (.fin 300) (.fin 300)
        (some { x := .fin 0, y := .fin 0 }) []).1 ≠
      (getData (.ok fun _ => .error (.engine "no image")) (.fin 300) (.fin 300) none []).1 :=
  (getData_focus_not_injective (fun _ => .error (.engine "no image")) (.fin 300) (.fin 300)
    []).2.2 { x := .fin 0, y := .fin 0 } (by simp)

end RustingRays
